import Mathlib

/-!
# Verification of the robyn worker-pool prototype

A shallow embedding of `src/lib.rs`: the `ThreadPool` / `Worker` / channel
machinery, the per-connection request handler, the response formatter, and
the host-binding entry points, together with theorems settling the spec's
claims about them.

Panics (`assert!`, `unwrap()`) are modelled by `Option`/`none`; machine
integers by `Nat`; the mpsc channel by a FIFO list of messages; threads by
an explicit nondeterministic step relation on a system state.
-/

set_option autoImplicit false

namespace Robyn

/-- `enum Message { NewJob(Job), Terminate }` from the source, with the
boxed job abstracted to a type parameter `J`. -/
inductive Message (J : Type) where
  | newJob (job : J)
  | terminate
  deriving DecidableEq

/-- A `Worker` as the pool's drop code sees it: its integer id.  (The thread
handle is modelled separately by the operational semantics below.) -/
structure Worker where
  id : Nat
  deriving DecidableEq

/-- `ThreadPool { workers, sender }`: the vector of workers. -/
structure ThreadPool where
  workers : List Worker
  deriving DecidableEq

/-- `ThreadPool::new(size)`: `assert!(size > 0)` (panic, modelled `none`,
before any worker is created), then push `Worker::new(id, …)` for
`id in 0..size`. -/
def ThreadPool.new (size : Nat) : Option ThreadPool :=
  if 0 < size then
    some { workers := (List.range size).map (fun id => { id := id }) }
  else
    none

/-- The ids of the worker threads `ThreadPool::new(size)` spawns, in spawn
order: the `assert!` precedes the spawn loop, so a failing assertion spawns
nothing. -/
def ThreadPool.newSpawnedIds (size : Nat) : List Nat :=
  if 0 < size then List.range size else []

/-- The shared mpsc channel as the sender side sees it: the FIFO queue of
messages in flight, and whether the receiving end still exists (it is owned
by the worker threads through an `Arc`; `send` returns `Err` exactly when
every receiver is gone). -/
structure PoolChannel (J : Type) where
  queue : List (Message J)
  receiverAlive : Bool
  deriving DecidableEq

/-- `mpsc::Sender::send`: appends one message to the FIFO queue, or fails
(`none`) when the receiving end has been dropped. -/
def PoolChannel.send {J : Type} (c : PoolChannel J) (m : Message J) :
    Option (PoolChannel J) :=
  if c.receiverAlive then some { c with queue := c.queue ++ [m] } else none

/-- `ThreadPool::execute(f)`: boxes the job and does
`self.sender.send(Message::NewJob(job)).unwrap()` — one `send`, whose
failure is turned into a panic (`none`) by `unwrap`. -/
def ThreadPool.execute {J : Type} (c : PoolChannel J) (job : J) :
    Option (PoolChannel J) :=
  PoolChannel.send c (Message.newJob job)

/-- `async fn read_file(filename)`: `tokio::fs::read_to_string(filename)`
followed by `unwrap()`.  The filesystem is a parameter `fs`; a missing or
unreadable file is `fs filename = none`, and the `unwrap` turns it into a
panic (`none`). -/
def read_file (fs : String → Option String) (filename : String) :
    Option String :=
  fs filename

/-- `async fn test_helper(contents, filename, status_line, stream)`: awaits
`read_file` (a panic there propagates before anything is written), then
formats `"{status_line}\r\nContent-Length: {len}\r\n\r\n{contents}"` where
`len = contents.len()` is the body's byte length, and writes exactly those
bytes to the stream.  The returned value is the byte string written to the
connection; `none` means the job panicked and wrote nothing. -/
def test_helper (fs : String → Option String) (filename : String)
    (status_line : String) : Option String :=
  match read_file fs filename with
  | none => none
  | some contents =>
      some (status_line ++ "\r\nContent-Length: " ++
        toString contents.utf8ByteSize ++ "\r\n\r\n" ++ contents)

/-- The bytes of an ASCII string, as `Nat`s — the view `b"..."` byte-string
literals give in the source. -/
def strBytes (s : String) : List Nat :=
  s.toList.map Char.toNat

/-- `let get = b"GET / HTTP/1.1\r\n"` from `handle_connection`. -/
def getPattern : List Nat :=
  strBytes "GET / HTTP/1.1\r\n"

/-- `let sleep = b"GET /sleep HTTP/1.1\r\n"` from `handle_connection`. -/
def sleepPattern : List Nat :=
  strBytes "GET /sleep HTTP/1.1\r\n"

/-- The observable choice `handle_connection` makes for one buffer: the
status line and body file it selects, and how many seconds it sleeps on the
handler's own thread before responding. -/
structure HandlerChoice where
  status_line : String
  filename : String
  delaySecs : Nat
  deriving DecidableEq

/-- The classification at the heart of `handle_connection`: test
`buffer.starts_with(get)`, then `buffer.starts_with(sleep)` (that branch
first does `thread::sleep(Duration::from_secs(5))`), else 404. -/
def handle_connection (buffer : List Nat) : HandlerChoice :=
  if getPattern.isPrefixOf buffer then
    { status_line := "HTTP/1.1 200 OK", filename := "hello.html", delaySecs := 0 }
  else if sleepPattern.isPrefixOf buffer then
    { status_line := "HTTP/1.1 200 OK", filename := "hello.html", delaySecs := 5 }
  else
    { status_line := "HTTP/1.1 404 NOT FOUND", filename := "404.html", delaySecs := 0 }

/-- The same classification with the two prefix tests performed in the
opposite order, used to show the order is immaterial. -/
def handle_connection_swapped (buffer : List Nat) : HandlerChoice :=
  if sleepPattern.isPrefixOf buffer then
    { status_line := "HTTP/1.1 200 OK", filename := "hello.html", delaySecs := 5 }
  else if getPattern.isPrefixOf buffer then
    { status_line := "HTTP/1.1 200 OK", filename := "hello.html", delaySecs := 0 }
  else
    { status_line := "HTTP/1.1 404 NOT FOUND", filename := "404.html", delaySecs := 0 }

/-! ## Operational model of the worker threads

The mpsc channel delivers messages in FIFO order, and the `Mutex` around
the shared `Receiver` guarantees that exactly one worker removes a given
message.  A system state is therefore the queue of undelivered messages,
one liveness flag per worker thread (the worker loop is alive until it
matches `Terminate` and breaks), and the log of executed jobs in the order
they were claimed. -/

/-- State of the pool's worker threads and channel.  `alive[i]` is whether
worker `i`'s loop is still running; `execLog` records `(worker id, job)`
in the order the jobs were taken from the channel. -/
structure SysState (J : Type) where
  queue : List (Message J)
  alive : List Bool
  execLog : List (Nat × J)

/-- One iteration of some worker's loop
(`let message = receiver.lock().unwrap().recv().unwrap(); match message`):
an arbitrary still-alive worker `i` removes the head message; on `NewJob`
it runs the job and loops, on `Terminate` it breaks out of its loop. -/
inductive WStep {J : Type} : SysState J → SysState J → Prop where
  | runJob (s : SysState J) (i : Nat) (j : J) (q : List (Message J))
      (hq : s.queue = Message.newJob j :: q)
      (hi : s.alive[i]? = some true) :
      WStep s { queue := q, alive := s.alive, execLog := s.execLog ++ [(i, j)] }
  | stop (s : SysState J) (i : Nat) (q : List (Message J))
      (hq : s.queue = Message.terminate :: q)
      (hi : s.alive[i]? = some true) :
      WStep s { queue := q, alive := s.alive.set i false, execLog := s.execLog }

/-- Zero or more worker iterations. -/
def Reaches {J : Type} (s t : SysState J) : Prop :=
  Relation.ReflTransGen WStep s t

/-- No worker can act: the system has quiesced. -/
def Stuck {J : Type} (s : SysState J) : Prop :=
  ∀ t, ¬ WStep s t

/-- Whether a message is `Terminate`. -/
def isTerm {J : Type} : Message J → Bool
  | Message.terminate => true
  | Message.newJob _ => false

/-- Number of `Terminate` messages in a queue. -/
def countTerm {J : Type} (q : List (Message J)) : Nat :=
  q.countP isTerm

/-- The jobs carried by a queue, in order. -/
def jobsOf {J : Type} (q : List (Message J)) : List J :=
  q.filterMap (fun m => match m with
    | Message.newJob j => some j
    | Message.terminate => none)

/-- The system state at the moment `Drop::drop` for `ThreadPool` has
finished its first loop: the jobs enqueued before shutdown, in submission
order, followed by the one `Terminate` per worker that the loop
`for _ in &self.workers { self.sender.send(Message::Terminate).unwrap() }`
appends, with all `n` workers still alive and nothing yet executed. -/
def drainState (J : Type) (jobs : List J) (n : Nat) : SysState J :=
  { queue := jobs.map Message.newJob ++ List.replicate n Message.terminate,
    alive := List.replicate n true,
    execLog := [] }

/-- The `Terminate` messages `Drop::drop` sends: one per worker. -/
def ThreadPool.dropTerminates (J : Type) (p : ThreadPool) : List (Message J) :=
  p.workers.map (fun _ => Message.terminate)

/-- The order in which `Drop::drop`'s second loop joins the worker threads:
the workers' ids in vector order. -/
def ThreadPool.dropJoinOrder (p : ThreadPool) : List Nat :=
  p.workers.map Worker.id

/-- One observable action of `Drop::drop` for `ThreadPool`. -/
inductive DropAction where
  | sendTerminate
  | joinWorker (id : Nat)
  deriving DecidableEq

/-- The actions of `Drop::drop` in program order: the first loop sends one
`Terminate` per worker, then the second loop joins each worker's thread in
vector order. -/
def ThreadPool.dropActions (p : ThreadPool) : List DropAction :=
  p.workers.map (fun _ => DropAction.sendTerminate) ++
    p.workers.map (fun w => DropAction.joinWorker w.id)

/-- The FIFO/drain invariant: the queue is a suffix of the drain queue, the
executed jobs are exactly the jobs of the consumed prefix, and the number
of live workers always equals the number of `Terminate` messages still in
the queue. -/
def DrainInv {J : Type} (jobs : List J) (n : Nat) (s : SysState J) : Prop :=
  ∃ k : Nat,
    s.queue = ((drainState J jobs n).queue).drop k ∧
    s.execLog.map Prod.snd = jobsOf (((drainState J jobs n).queue).take k) ∧
    s.alive.count true = countTerm s.queue ∧
    s.alive.length = n

/-! ## The worker loop's lock discipline

In `Worker::new`, the statement
`let message = receiver.lock().unwrap().recv().unwrap();` takes the mutex,
receives one message, and — because the `MutexGuard` is a temporary whose
lifetime ends with the statement — releases the mutex before the `match`
runs the job.  One loop iteration is embedded as its sequence of events. -/

/-- Events of one iteration of the worker loop. -/
inductive WEvent where
  | lockAcquire
  | recvMsg
  | lockRelease
  | runJob
  | exitLoop
  deriving DecidableEq

/-- One iteration of the loop in `Worker::new`, as the sequence of events
it performs for the message it receives: lock, receive, unlock (end of the
`let` statement), then either run the job or break. -/
def workerIteration {J : Type} (m : Message J) : List WEvent :=
  [WEvent.lockAcquire, WEvent.recvMsg, WEvent.lockRelease] ++
    match m with
    | Message.newJob _ => [WEvent.runJob]
    | Message.terminate => [WEvent.exitLoop]

/-- The events performed while the mutex is held: everything strictly
between the first `lockAcquire` and the next `lockRelease`. -/
def lockHeldEvents (evs : List WEvent) : List WEvent :=
  ((evs.dropWhile (fun e => e != WEvent.lockAcquire)).drop 1).takeWhile
    (fun e => e != WEvent.lockRelease)

/-! ## The host-binding entry points -/

/-- Observable actions of the binding-layer entry points. -/
inductive ServerEffect where
  | callCallable
  | bindListener (addr : String)
  | newPool (size : Nat)
  | acceptConnection
  | executeJob
  deriving DecidableEq

/-- `Server::start(self_, test)`: the body runs `test.call0();` — one call
of the supplied callable, its result discarded — and nothing else; the
listener/pool/dispatch code is commented out.  `callResult` is the value
the callable returns; the trace does not depend on it. -/
def Server.start {α : Type} (_callResult : α) : List ServerEffect :=
  [ServerEffect.callCallable]

/-- `start_server()`: binds `127.0.0.1:7878`, builds `ThreadPool::new(4)`,
then accepts connections forever, submitting one job per connection.  The
trace is truncated at `conns` accepted connections. -/
def start_server_trace (conns : Nat) : List ServerEffect :=
  [ServerEffect.bindListener "127.0.0.1:7878", ServerEffect.newPool 4] ++
    (List.replicate conns [ServerEffect.acceptConnection, ServerEffect.executeJob]).flatten

end Robyn

namespace Robyn

/-- No buffer starts with both recognized patterns: they disagree at byte
index 5 (a space vs the letter s). -/
lemma patterns_not_both (buffer : List Nat) :
    (getPattern.isPrefixOf buffer && sleepPattern.isPrefixOf buffer) = false := by
  by_cases hg : getPattern.isPrefixOf buffer = true
  · by_cases hs : sleepPattern.isPrefixOf buffer = true
    · exfalso
      obtain ⟨t, ht⟩ := List.isPrefixOf_iff_prefix.mp hg
      obtain ⟨u, hu⟩ := List.isPrefixOf_iff_prefix.mp hs
      have h5g : buffer[5]? = getPattern[5]? := by
        rw [← ht]
        exact List.getElem?_append_left (by decide)
      have h5s : buffer[5]? = sleepPattern[5]? := by
        rw [← hu]
        exact List.getElem?_append_left (by decide)
      rw [h5g] at h5s
      revert h5s
      decide
    · simp [hs]
  · simp [Bool.not_eq_true] at hg
    simp [hg]

/-- C1: For every size > 0, `ThreadPool::new(size)` constructs exactly
`size` workers, each with a unique integer id drawn from `0..size`, before
returning; for size == 0 it panics before any worker thread is started. -/
theorem threadPool_new_spec (size : Nat) :
    (0 < size →
      ∃ p : ThreadPool, ThreadPool.new size = some p ∧
        p.workers.length = size ∧
        p.workers.map Worker.id = List.range size ∧
        (p.workers.map Worker.id).Nodup ∧
        ∀ w ∈ p.workers, w.id < size) ∧
    (size = 0 →
      ThreadPool.new size = none ∧ ThreadPool.newSpawnedIds size = []) := by
  constructor
  · intro h
    refine ⟨{ workers := (List.range size).map (fun id => { id := id }) }, ?_, ?_, ?_, ?_, ?_⟩
    · simp [ThreadPool.new, h]
    · simp
    · simp [List.map_map]
      apply List.map_id
    · have : ((List.range size).map (fun id => ({ id := id } : Worker))).map Worker.id
        = List.range size := by
        simp [List.map_map]
        apply List.map_id
      rw [this]
      exact List.nodup_range size
    · intro w hw
      simp at hw
      obtain ⟨i, hi, rfl⟩ := hw
      exact hi
  · intro h
    subst h
    constructor
    · simp [ThreadPool.new]
    · simp [ThreadPool.newSpawnedIds]

/-- Witness for C1 at size 3 and size 0. -/
theorem threadPool_new_spec_witness :
    (ThreadPool.new 3).isSome = true ∧ ThreadPool.new 0 = none := by
  constructor
  · obtain ⟨p, hp, -, -, -, -⟩ := (threadPool_new_spec 3).1 (by decide)
    rw [hp]
    rfl
  · exact ((threadPool_new_spec 0).2 rfl).1

/-- C6: `ThreadPool::execute(job)` enqueues exactly one `NewJob` message
carrying that job onto the channel and returns; its result does not depend
on whether the job ever runs.  While any receiver is alive it never fails;
when every worker (hence the receiving end) is gone, the `unwrap` on the
failed send is a panic (`none`), not a recoverable error. -/
theorem threadPool_execute_spec {J : Type} (c : PoolChannel J) (job : J) :
    (c.receiverAlive = true →
      ThreadPool.execute c job =
        some { c with queue := c.queue ++ [Message.newJob job] }) ∧
    (c.receiverAlive = false → ThreadPool.execute c job = none) := by
  constructor
  · intro h
    simp [ThreadPool.execute, PoolChannel.send, h]
  · intro h
    simp [ThreadPool.execute, PoolChannel.send, h]

/-- Witness for C6: a live channel gains exactly the one message; a dead
channel makes `execute` panic. -/
theorem threadPool_execute_spec_witness :
    ThreadPool.execute ({ queue := [], receiverAlive := true } : PoolChannel Nat) 7 =
      some { queue := [Message.newJob 7], receiverAlive := true } ∧
    ThreadPool.execute ({ queue := [], receiverAlive := false } : PoolChannel Nat) 7 =
      none :=
  ⟨(threadPool_execute_spec ({ queue := [], receiverAlive := true } : PoolChannel Nat) 7).1 rfl,
   (threadPool_execute_spec ({ queue := [], receiverAlive := false } : PoolChannel Nat) 7).2 rfl⟩

/-- C5: for every status line and every body the file system can return,
the bytes written to the connection are exactly
`status-line ++ "\r\nContent-Length: " ++ decimal byte length of body ++
"\r\n\r\n" ++ body`, and the Content-Length value is the body's length in
bytes (`String.utf8ByteSize`, matching Rust's `String::len`). -/
theorem test_helper_response_spec (fs : String → Option String)
    (filename status_line body : String) (hfs : fs filename = some body) :
    test_helper fs filename status_line =
      some (status_line ++ "\r\nContent-Length: " ++
        Nat.repr body.utf8ByteSize ++ "\r\n\r\n" ++ body) := by
  simp [test_helper, read_file, hfs]
  rfl

/-- Witness for C5 at a concrete filesystem, status line and body. -/
theorem test_helper_response_spec_witness :
    test_helper (fun f => if f = "hello.html" then some "hi" else none)
        "hello.html" "HTTP/1.1 200 OK" =
      some ("HTTP/1.1 200 OK" ++ "\r\nContent-Length: " ++
        Nat.repr ("hi" : String).utf8ByteSize ++ "\r\n\r\n" ++ "hi") :=
  test_helper_response_spec (fun f => if f = "hello.html" then some "hi" else none)
    "hello.html" "HTTP/1.1 200 OK" "hi" rfl

/-- C7: if the chosen response body file is missing or unreadable, the job
panics on the worker thread running it: `test_helper` produces `none`, so
no bytes at all are written to the connection — in particular no 500-class
response. -/
theorem test_helper_missing_file_spec (fs : String → Option String)
    (filename status_line : String) (hfs : fs filename = none) :
    test_helper fs filename status_line = none ∧
    ∀ response : String, test_helper fs filename status_line ≠ some response := by
  constructor
  · simp [test_helper, read_file, hfs]
  · intro response
    simp [test_helper, read_file, hfs]

/-- Witness for C7: an empty filesystem makes the job panic with nothing
written. -/
theorem test_helper_missing_file_spec_witness :
    test_helper (fun _ => none) "404.html" "HTTP/1.1 404 NOT FOUND" = none :=
  (test_helper_missing_file_spec (fun _ => none) "404.html" "HTTP/1.1 404 NOT FOUND" rfl).1

/-- C4: `handle_connection` classifies every buffer by exact byte prefix: a
buffer beginning with `GET / HTTP/1.1\r\n` gets status `HTTP/1.1 200 OK`,
body file `hello.html` and no delay; one beginning with
`GET /sleep HTTP/1.1\r\n` gets the same status and body file after a
5-second sleep on the handler's own thread; every other buffer gets
`HTTP/1.1 404 NOT FOUND` with body file `404.html`. -/
theorem handle_connection_spec (buffer : List Nat) :
    (getPattern.isPrefixOf buffer = true →
      handle_connection buffer =
        { status_line := "HTTP/1.1 200 OK", filename := "hello.html", delaySecs := 0 }) ∧
    (sleepPattern.isPrefixOf buffer = true →
      handle_connection buffer =
        { status_line := "HTTP/1.1 200 OK", filename := "hello.html", delaySecs := 5 }) ∧
    (getPattern.isPrefixOf buffer = false → sleepPattern.isPrefixOf buffer = false →
      handle_connection buffer =
        { status_line := "HTTP/1.1 404 NOT FOUND", filename := "404.html", delaySecs := 0 }) := by
  refine ⟨?_, ?_, ?_⟩
  · intro hg
    simp [handle_connection, hg]
  · intro hs
    have hg : getPattern.isPrefixOf buffer = false := by
      have := patterns_not_both buffer
      cases h : getPattern.isPrefixOf buffer
      · rfl
      · rw [h, hs] at this
        exact absurd this (by decide)
    simp [handle_connection, hg, hs]
  · intro hg hs
    simp [handle_connection, hg, hs]

/-- Witness for C4: one concrete buffer per branch. -/
theorem handle_connection_spec_witness :
    handle_connection (strBytes "GET / HTTP/1.1\r\nHost: x\r\n\r\n") =
      { status_line := "HTTP/1.1 200 OK", filename := "hello.html", delaySecs := 0 } ∧
    handle_connection (strBytes "GET /sleep HTTP/1.1\r\nHost: x\r\n\r\n") =
      { status_line := "HTTP/1.1 200 OK", filename := "hello.html", delaySecs := 5 } ∧
    handle_connection (strBytes "POST /form HTTP/1.1\r\n\r\n") =
      { status_line := "HTTP/1.1 404 NOT FOUND", filename := "404.html", delaySecs := 0 } :=
  ⟨(handle_connection_spec (strBytes "GET / HTTP/1.1\r\nHost: x\r\n\r\n")).1 (by decide),
   (handle_connection_spec (strBytes "GET /sleep HTTP/1.1\r\nHost: x\r\n\r\n")).2.1 (by decide),
   (handle_connection_spec (strBytes "POST /form HTTP/1.1\r\n\r\n")).2.2 (by decide) (by decide)⟩

/-- C9: the two recognized request prefixes are mutually exclusive — no
buffer starts with both (they already differ at byte index 5, space versus
the letter s) — so the three-way classification does not depend on the
order of the two prefix tests. -/
theorem patterns_exclusive_spec (buffer : List Nat) :
    (getPattern.isPrefixOf buffer && sleepPattern.isPrefixOf buffer) = false ∧
    getPattern[5]? = some 32 ∧ sleepPattern[5]? = some 115 ∧
    handle_connection buffer = handle_connection_swapped buffer := by
  refine ⟨patterns_not_both buffer, by decide, by decide, ?_⟩
  cases hg : getPattern.isPrefixOf buffer
  · cases hs : sleepPattern.isPrefixOf buffer
    · simp [handle_connection, handle_connection_swapped, hg, hs]
    · simp [handle_connection, handle_connection_swapped, hg, hs]
  · have hs : sleepPattern.isPrefixOf buffer = false := by
      have := patterns_not_both buffer
      rw [hg] at this
      simpa using this
    simp [handle_connection, handle_connection_swapped, hg, hs]

/-! ## Lemmas about the operational model -/

/-- Marking one live worker dead decreases the live count by one. -/
lemma count_true_set_false :
    ∀ (l : List Bool) (i : Nat), l[i]? = some true →
      (l.set i false).count true + 1 = l.count true := by
  intro l
  induction l with
  | nil =>
    intro i h
    simp at h
  | cons b tl ih =>
    intro i h
    cases i with
    | zero =>
      rw [List.getElem?_cons_zero] at h
      cases h
      simp [List.count_cons]
    | succ n =>
      rw [List.getElem?_cons_succ] at h
      have := ih n h
      cases b <;> simp [List.count_cons] <;> omega

/-- A positive live count yields the index of a live worker. -/
lemma exists_alive_of_count_pos :
    ∀ l : List Bool, 0 < l.count true → ∃ i : Nat, l[i]? = some true := by
  intro l
  induction l with
  | nil =>
    intro h
    simp at h
  | cons b tl ih =>
    intro h
    cases b with
    | false =>
      have htl : 0 < tl.count true := by
        simpa [List.count_cons] using h
      obtain ⟨i, hi⟩ := ih htl
      exact ⟨i + 1, by simpa using hi⟩
    | true =>
      exact ⟨0, List.getElem?_cons_zero⟩

lemma countTerm_append {J : Type} (a b : List (Message J)) :
    countTerm (a ++ b) = countTerm a + countTerm b := by
  simp [countTerm]

lemma countTerm_cons_newJob {J : Type} (j : J) (q : List (Message J)) :
    countTerm (Message.newJob j :: q) = countTerm q := by
  simp [countTerm, List.countP_cons, isTerm]

lemma countTerm_cons_term {J : Type} (q : List (Message J)) :
    countTerm (Message.terminate :: q) = countTerm q + 1 := by
  simp [countTerm, List.countP_cons, isTerm]

lemma countTerm_map_newJob {J : Type} (l : List J) :
    countTerm (l.map Message.newJob) = 0 := by
  simp [countTerm, List.countP_map]
  intro a ha
  simp [Function.comp, isTerm]

lemma countTerm_replicate_term {J : Type} (n : Nat) :
    countTerm (List.replicate n (Message.terminate : Message J)) = n := by
  simp [countTerm, List.countP_replicate, isTerm]

lemma jobsOf_append {J : Type} (a b : List (Message J)) :
    jobsOf (a ++ b) = jobsOf a ++ jobsOf b := by
  simp [jobsOf]

lemma jobsOf_map_newJob {J : Type} (l : List J) :
    jobsOf (l.map Message.newJob) = l := by
  induction l with
  | nil => rfl
  | cons a tl ih =>
    simpa [jobsOf, List.filterMap_cons] using ih

lemma jobsOf_replicate_term {J : Type} (n : Nat) :
    jobsOf (List.replicate n (Message.terminate : Message J)) = [] := by
  induction n with
  | zero => rfl
  | succ m _ =>
    simp [jobsOf, List.replicate_succ, List.filterMap_cons]

/-- The part of the drain queue still undelivered after `k` deliveries. -/
lemma drain_queue_drop {J : Type} (jobs : List J) (n k : Nat) :
    ((drainState J jobs n).queue).drop k =
      (jobs.map Message.newJob).drop k ++
        List.replicate (n - (k - jobs.length)) Message.terminate := by
  simp [drainState, List.drop_append_eq_append_drop]

/-- The part of the drain queue already delivered after `k` deliveries. -/
lemma drain_queue_take {J : Type} (jobs : List J) (n k : Nat) :
    ((drainState J jobs n).queue).take k =
      (jobs.map Message.newJob).take k ++
        List.replicate (min (k - jobs.length) n) Message.terminate := by
  simp [drainState, List.take_append_eq_append_take]

lemma countTerm_drain_drop {J : Type} (jobs : List J) (n k : Nat) :
    countTerm (((drainState J jobs n).queue).drop k) = n - (k - jobs.length) := by
  rw [drain_queue_drop, countTerm_append, ← List.map_drop, countTerm_map_newJob,
    countTerm_replicate_term, Nat.zero_add]

lemma jobsOf_drain_take {J : Type} (jobs : List J) (n k : Nat) :
    jobsOf (((drainState J jobs n).queue).take k) = jobs.take k := by
  rw [drain_queue_take, jobsOf_append, ← List.map_take, jobsOf_map_newJob,
    jobsOf_replicate_term, List.append_nil]

/-- The drain invariant holds at the start of the drain. -/
lemma drainInv_init {J : Type} (jobs : List J) (n : Nat) :
    DrainInv jobs n (drainState J jobs n) := by
  refine ⟨0, by simp, ?_, ?_, by simp [drainState]⟩
  · simp [drainState, jobsOf]
  · show (List.replicate n true).count true = countTerm ((drainState J jobs n).queue)
    rw [List.count_replicate_self]
    show n = countTerm ((drainState J jobs n).queue)
    rw [show (drainState J jobs n).queue =
      jobs.map Message.newJob ++ List.replicate n Message.terminate from rfl]
    rw [countTerm_append, countTerm_map_newJob, countTerm_replicate_term, Nat.zero_add]

/-- The drain invariant is preserved by every worker iteration. -/
lemma drainInv_step {J : Type} {jobs : List J} {n : Nat} {s t : SysState J}
    (hinv : DrainInv jobs n s) (hstep : WStep s t) : DrainInv jobs n t := by
  obtain ⟨k, hq, hlog, hcount, hlen⟩ := hinv
  cases hstep with
  | runJob i j q hq' hi =>
    have hdk : ((drainState J jobs n).queue).drop k = Message.newJob j :: q :=
      hq.symm.trans hq'
    have hnext : ((drainState J jobs n).queue).drop (k + 1) = q := by
      rw [← List.drop_drop, hdk]
      rfl
    have hgk : ((drainState J jobs n).queue)[k]? = some (Message.newJob j) := by
      have h0 := List.getElem?_drop ((drainState J jobs n).queue) k 0
      rw [hdk, List.getElem?_cons_zero] at h0
      simpa using h0.symm
    have htake : ((drainState J jobs n).queue).take (k + 1) =
        ((drainState J jobs n).queue).take k ++ [Message.newJob j] := by
      rw [List.take_succ, hgk]
      rfl
    refine ⟨k + 1, hnext.symm, ?_, ?_, hlen⟩
    · show (s.execLog ++ [(i, j)]).map Prod.snd = _
      rw [htake, jobsOf_append, List.map_append, hlog]
      rfl
    · show s.alive.count true = countTerm q
      rw [hq, hdk, countTerm_cons_newJob] at hcount
      exact hcount
  | stop i q hq' hi =>
    have hdk : ((drainState J jobs n).queue).drop k = Message.terminate :: q :=
      hq.symm.trans hq'
    have hnext : ((drainState J jobs n).queue).drop (k + 1) = q := by
      rw [← List.drop_drop, hdk]
      rfl
    have hgk : ((drainState J jobs n).queue)[k]? =
        some (Message.terminate : Message J) := by
      have h0 := List.getElem?_drop ((drainState J jobs n).queue) k 0
      rw [hdk, List.getElem?_cons_zero] at h0
      simpa using h0.symm
    have htake : ((drainState J jobs n).queue).take (k + 1) =
        ((drainState J jobs n).queue).take k ++ [Message.terminate] := by
      rw [List.take_succ, hgk]
      rfl
    refine ⟨k + 1, hnext.symm, ?_, ?_, by simpa using hlen⟩
    · show s.execLog.map Prod.snd = _
      rw [htake, jobsOf_append, hlog]
      have hnil : jobsOf [(Message.terminate : Message J)] = [] := rfl
      rw [hnil, List.append_nil]
    · show (s.alive.set i false).count true = countTerm q
      rw [hq, hdk, countTerm_cons_term] at hcount
      have hset := count_true_set_false s.alive i hi
      omega

/-- The drain invariant holds in every state reachable from the start of
the drain. -/
lemma drainInv_reaches {J : Type} {jobs : List J} {n : Nat} {s : SysState J}
    (h : Reaches (drainState J jobs n) s) : DrainInv jobs n s := by
  unfold Reaches at h
  induction h with
  | refl => exact drainInv_init jobs n
  | tail _ hstep ih => exact drainInv_step ih hstep

/-- While a message is queued and some worker is alive, a step exists. -/
lemma drain_progress {J : Type} {s : SysState J} (m : Message J)
    (q : List (Message J)) (hq : s.queue = m :: q)
    (hc : 0 < s.alive.count true) : ∃ t, WStep s t := by
  obtain ⟨i, hi⟩ := exists_alive_of_count_pos s.alive hc
  cases m with
  | newJob j => exact ⟨_, WStep.runJob s i j q hq hi⟩
  | terminate => exact ⟨_, WStep.stop s i q hq hi⟩

/-- A state whose queue is empty admits no step. -/
lemma stuck_of_queue_nil {J : Type} (s : SysState J) (h : s.queue = []) :
    Stuck s := by
  intro t ht
  cases ht with
  | runJob i j q hq hi =>
    rw [h] at hq
    exact List.noConfusion hq
  | stop i q hq hi =>
    rw [h] at hq
    exact List.noConfusion hq

/-- In a quiesced reachable state the queue is drained, every worker has
terminated, and exactly the enqueued jobs ran, in order. -/
lemma stuck_drain {J : Type} {jobs : List J} {n : Nat} (hn : 0 < n)
    {s : SysState J} (hinv : DrainInv jobs n s) (hstuck : Stuck s) :
    s.queue = [] ∧ s.alive.count true = 0 ∧ s.execLog.map Prod.snd = jobs := by
  obtain ⟨k, hq, hlog, hcount, hlen⟩ := hinv
  have hqnil : s.queue = [] := by
    cases hqe : s.queue with
    | nil => rfl
    | cons m q =>
      exfalso
      have hc0 : s.alive.count true = 0 := by
        by_contra hc
        obtain ⟨t, ht⟩ := drain_progress m q hqe (Nat.pos_of_ne_zero hc)
        exact hstuck t ht
      have hct : countTerm s.queue = 0 := by
        rw [← hcount, hc0]
      rw [hq, countTerm_drain_drop] at hct
      have hklarge : ((drainState J jobs n).queue).length ≤ k := by
        simp [drainState]
        omega
      have hnil2 : s.queue = [] := by
        rw [hq]
        exact List.drop_eq_nil_of_le hklarge
      rw [hqe] at hnil2
      exact List.noConfusion hnil2
  have hk : ((drainState J jobs n).queue).length ≤ k := by
    rw [hqnil] at hq
    exact List.drop_eq_nil_iff.mp hq.symm
  have hkjobs : jobs.length ≤ k := by
    simp [drainState] at hk
    omega
  refine ⟨hqnil, ?_, ?_⟩
  · rw [hqnil] at hcount
    simpa [countTerm] using hcount
  · rw [hlog, jobsOf_drain_take]
    exact List.take_of_length_le hkjobs

/-- C2: dropping a `ThreadPool` sends exactly one `Terminate` message per
worker (as many `Terminate`s as the pool has workers) and only then joins
every worker's thread, in worker-creation order (ascending id); and every
quiesced state of the worker system reachable from the post-broadcast
state has an empty queue and no live worker, so once the joins have all
returned no worker thread is still running. -/
theorem threadPool_drop_spec (J : Type) (size : Nat) (hsize : 0 < size)
    (p : ThreadPool) (hp : ThreadPool.new size = some p) :
    p.dropActions =
      List.replicate size DropAction.sendTerminate ++
        (List.range size).map DropAction.joinWorker ∧
    (ThreadPool.dropTerminates J p).length = p.workers.length ∧
    p.dropJoinOrder = List.range size ∧
    p.dropJoinOrder.Pairwise (· < ·) ∧
    (∀ (jobs : List J) (s : SysState J),
      Reaches (drainState J jobs size) s → Stuck s →
        s.queue = [] ∧ s.alive.count true = 0) := by
  have hw : p.workers = (List.range size).map (fun id => ({ id := id } : Worker)) := by
    rw [ThreadPool.new, if_pos hsize] at hp
    cases hp
    rfl
  have hjoin : p.dropJoinOrder = List.range size := by
    rw [ThreadPool.dropJoinOrder, hw, List.map_map]
    apply List.map_id
  refine ⟨?_, ?_, hjoin, ?_, ?_⟩
  · rw [ThreadPool.dropActions, hw]
    congr 1
    · rw [List.map_const']
      simp
    · rw [List.map_map]
      rfl
  · simp [ThreadPool.dropTerminates]
  · rw [hjoin]
    exact List.pairwise_lt_range size
  · intro jobs s hr hstuck
    have hres := stuck_drain hsize (drainInv_reaches hr) hstuck
    exact ⟨hres.1, hres.2.1⟩

/-- Witness for C2: the pool of size 2, and a complete drain run of its two
`Terminate` messages ending with both workers stopped. -/
theorem threadPool_drop_spec_witness :
    ({ workers := [{ id := 0 }, { id := 1 }] } : ThreadPool).dropActions =
      List.replicate 2 DropAction.sendTerminate ++
        (List.range 2).map DropAction.joinWorker ∧
    ({ queue := [], alive := [false, false], execLog := [] } : SysState Nat).queue = [] ∧
    ({ queue := [], alive := [false, false], execLog := [] } : SysState Nat).alive.count true = 0 := by
  have h := threadPool_drop_spec Nat 2 (by decide)
    { workers := [{ id := 0 }, { id := 1 }] } (by decide)
  refine ⟨h.1, ?_⟩
  have step1 : WStep (drainState Nat [] 2)
      { queue := [Message.terminate], alive := [false, true], execLog := [] } :=
    WStep.stop (drainState Nat [] 2) 0 [Message.terminate] rfl rfl
  have step2 : WStep
      ({ queue := [Message.terminate], alive := [false, true], execLog := [] } : SysState Nat)
      { queue := [], alive := [false, false], execLog := [] } :=
    WStep.stop _ 1 [] rfl rfl
  have hrun : Reaches (drainState Nat [] 2)
      ({ queue := [], alive := [false, false], execLog := [] } : SysState Nat) :=
    Relation.ReflTransGen.tail (Relation.ReflTransGen.tail Relation.ReflTransGen.refl step1) step2
  exact h.2.2.2.2 [] _ hrun (stuck_of_queue_nil _ rfl)

/-- C3: starting from the drain queue — the `k` jobs a producer enqueued
before shutdown, in submission order, followed by the `Terminate`
broadcast — every reachable state's executed-job sequence is a prefix of
the submitted jobs (per-producer FIFO, nothing run twice or out of order);
as soon as any worker has honored a `Terminate` (fewer than `n` live
workers) every enqueued job has already been executed; and in any quiesced
state exactly the enqueued jobs were executed, in order — no enqueued job
is dropped unexecuted. -/
theorem pool_fifo_drain_spec (J : Type) (jobs : List J) (n : Nat)
    (hn : 0 < n) (s : SysState J) (hr : Reaches (drainState J jobs n) s) :
    s.execLog.map Prod.snd <+: jobs ∧
    (s.alive.count true < n → s.execLog.map Prod.snd = jobs) ∧
    (Stuck s → s.execLog.map Prod.snd = jobs ∧ s.queue = []) := by
  obtain ⟨k, hq, hlog, hcount, hlen⟩ := drainInv_reaches hr
  refine ⟨?_, ?_, ?_⟩
  · rw [hlog, jobsOf_drain_take]
    exact List.take_prefix k jobs
  · intro hlive
    rw [hlog, jobsOf_drain_take]
    rw [hq, countTerm_drain_drop] at hcount
    have hjk : jobs.length ≤ k := by omega
    exact List.take_of_length_le hjk
  · intro hstuck
    have hres := stuck_drain hn ⟨k, hq, hlog, hcount, hlen⟩ hstuck
    exact ⟨hres.2.2, hres.1⟩

/-- Witness for C3: one job and one worker, run to quiescence: the job is
executed exactly once before the worker honors its `Terminate`. -/
theorem pool_fifo_drain_spec_witness :
    ({ queue := [], alive := [false], execLog := [(0, 5)] } : SysState Nat).execLog.map
        Prod.snd = [5] ∧
    ({ queue := [], alive := [false], execLog := [(0, 5)] } : SysState Nat).queue = [] := by
  have step1 : WStep (drainState Nat [5] 1)
      { queue := [Message.terminate], alive := [true], execLog := [(0, 5)] } :=
    WStep.runJob (drainState Nat [5] 1) 0 5 [Message.terminate] rfl rfl
  have step2 : WStep
      ({ queue := [Message.terminate], alive := [true], execLog := [(0, 5)] } : SysState Nat)
      { queue := [], alive := [false], execLog := [(0, 5)] } :=
    WStep.stop _ 0 [] rfl rfl
  have hrun : Reaches (drainState Nat [5] 1)
      ({ queue := [], alive := [false], execLog := [(0, 5)] } : SysState Nat) :=
    Relation.ReflTransGen.tail (Relation.ReflTransGen.tail Relation.ReflTransGen.refl step1) step2
  exact (pool_fifo_drain_spec Nat [5] 1 (by decide) _ hrun).2.2 (stuck_of_queue_nil _ rfl)

/-- C8: in every iteration of the worker loop the mutex is held only for
the take-next-message step — the events performed under the lock are
exactly the receive — and acting on the message (running the job, or
exiting the loop) happens only after the lock is released, whatever the
message is. -/
theorem worker_lock_discipline_spec (J : Type) (m : Message J) (j : J) :
    lockHeldEvents (workerIteration m) = [WEvent.recvMsg] ∧
    WEvent.runJob ∉ lockHeldEvents (workerIteration m) ∧
    workerIteration (Message.newJob j) =
      [WEvent.lockAcquire, WEvent.recvMsg, WEvent.lockRelease, WEvent.runJob] ∧
    workerIteration (Message.terminate : Message J) =
      [WEvent.lockAcquire, WEvent.recvMsg, WEvent.lockRelease, WEvent.exitLoop] := by
  have h1 : lockHeldEvents (workerIteration m) = [WEvent.recvMsg] := by
    cases m <;> rfl
  refine ⟨h1, ?_, rfl, rfl⟩
  rw [h1]
  decide

/-- C10: `Server::start` invokes the supplied callable exactly once and
does nothing else observable: its effect trace is just the one call, the
callable's result is discarded (the trace does not depend on it), it binds
no listener, builds no pool, accepts and dispatches no connection, and its
trace differs from `start_server`'s accept-loop-over-pool trace for every
number of accepted connections. -/
theorem server_start_spec (α : Type) (callResult : α) (conns : Nat) :
    Server.start callResult = [ServerEffect.callCallable] ∧
    (Server.start callResult).count ServerEffect.callCallable = 1 ∧
    ServerEffect.bindListener "127.0.0.1:7878" ∉ Server.start callResult ∧
    ServerEffect.newPool 4 ∉ Server.start callResult ∧
    ServerEffect.acceptConnection ∉ Server.start callResult ∧
    ServerEffect.executeJob ∉ Server.start callResult ∧
    Server.start callResult = Server.start () ∧
    Server.start callResult ≠ start_server_trace conns := by
  have hs : Server.start callResult = [ServerEffect.callCallable] := rfl
  refine ⟨hs, rfl, ?_, ?_, ?_, ?_, rfl, ?_⟩
  · rw [hs]
    decide
  · rw [hs]
    decide
  · rw [hs]
    decide
  · rw [hs]
    decide
  · intro h
    rw [Server.start, start_server_trace] at h
    exact List.noConfusion h (fun hhead _ => ServerEffect.noConfusion hhead)

end Robyn

